import Mathlib

/-!
Verification of the closet repository's Item Processing & Outfit Composition
pipeline. The frontend definitions are shallow embeddings of the TypeScript
sources (`frontend/src/components/ImageUpload.tsx`, `ImageGallery.tsx`,
`frontend/src/utils/api.ts`). The Flask backend (`app.py`) is not part of the
staged sources, so the orchestrator, catalog store, naming policy and outfit
compositor are modelled from the specification's words; each such definition
carries a doc comment starting with `Modelled from the spec:`.
-/

namespace Closet

/-! ## Decimal rendering (used by the disambiguating filename suffix) -/

/-- Numeric value of a decimal digit character; `'0'` has code 48. -/
def charVal (c : Char) : Nat := c.toNat - 48

/-- Value of a list of decimal digit characters, most significant first. -/
def decVal (l : List Char) : Nat := l.foldl (fun acc c => acc * 10 + charVal c) 0

/-- Fuel-driven decimal rendering of a natural number, most significant digit
first. The fuel is an upper bound on the number; `decChars` supplies `n`. -/
def decCharsAux : Nat → Nat → List Char
  | 0, n => [Nat.digitChar n]
  | fuel + 1, n =>
    if n < 10 then [Nat.digitChar n]
    else decCharsAux fuel (n / 10) ++ [Nat.digitChar (n % 10)]

/-- Decimal digit characters of `n`, most significant first. -/
def decChars (n : Nat) : List Char := decCharsAux n n

/-- Decimal string of `n`, e.g. `decString 12 = "12"`. -/
def decString (n : Nat) : String := ⟨decChars n⟩

/-! ## Naming & Storage Policy -/

/-- Modelled from the spec: the Naming & Storage Policy's candidate output
filename for disambiguation counter `k` (`app.py` is not in the staged
sources). Counter `0` is the plain `<base><ext>` form; counter `k ≥ 1`
appends ` (k)` before the extension. -/
def candidate (base ext : String) (k : Nat) : String :=
  if k = 0 then base ++ ext
  else base ++ " (" ++ decString k ++ ")" ++ ext

/-- Modelled from the spec: collision-avoiding filename assignment (`app.py`
is not in the staged sources). The smallest counter whose candidate name is
not already taken is used; searching `existing.length + 1` counters always
finds a free one. -/
def freshName (base ext : String) (existing : List String) : String :=
  match (List.range (existing.length + 1)).find?
      (fun k => !(existing.contains (candidate base ext k))) with
  | some k => candidate base ext k
  | none => candidate base ext (existing.length + 1)

/-- Filename stem: everything before the last `'.'`, or the whole name when
there is no dot. -/
def fileStem (s : String) : String :=
  if s.data.contains '.' then ⟨((s.data.reverse.dropWhile (fun c => c ≠ '.')).tail).reverse⟩
  else s

/-- Filename extension including the dot (`".jpg"`), or `""` when there is
no dot. -/
def fileExt (s : String) : String :=
  if s.data.contains '.' then ⟨'.' :: (s.data.reverse.takeWhile (fun c => c ≠ '.')).reverse⟩
  else ""

/-! ## Data model (Catalog Store) -/

/-- Modelled from the spec: the error kinds of §7 (`app.py` is not in the
staged sources). -/
inductive AppError where
  | validation : String → AppError
  | notFound : List Nat → AppError
  | extraction : String → AppError
  | storage : String → AppError
deriving DecidableEq

/-- Modelled from the spec: a catalogued clothing Item (§3); identity plus
the attributes the claims speak about. -/
structure Item where
  id : Nat
  filename : String
  article : String
deriving DecidableEq

/-- An Outfit's member reference with denormalized display fields, as in the
frontend's `OutfitItem` interface (`api.ts`). -/
structure OutfitItem where
  id : Nat
  filename : String
  image_url : String
deriving DecidableEq

/-- Modelled from the spec: a composite Outfit referencing its member Items
(§3). -/
structure Outfit where
  id : Nat
  filename : String
  items : List OutfitItem
deriving DecidableEq

/-- Modelled from the spec: the Catalog Store's durable state together with
the three logical storage areas of the Naming & Storage Policy (§4.1, §4.3)
(`app.py` is not in the staged sources). Areas hold filenames. -/
structure Catalog where
  items : List Item
  outfits : List Outfit
  nextItemId : Nat
  nextOutfitId : Nat
  inputArea : List String
  outputArea : List String
  archiveArea : List String
deriving DecidableEq

/-- The store before any upload. -/
def emptyCatalog : Catalog := ⟨[], [], 1, 1, [], [], []⟩

/-- Filenames of all catalogued Items. -/
def itemFilenames (st : Catalog) : List String := st.items.map (fun i => i.filename)

/-- Filenames of all catalogued Outfits. -/
def outfitFilenames (st : Catalog) : List String := st.outfits.map (fun o => o.filename)

/-- Content types accepted for upload (PNG, JPG, JPEG per the README). -/
def supportedImageTypes : List String := ["image/png", "image/jpeg", "image/jpg"]

/-- Whether a content type is a supported image type. -/
def supportedImageType (t : String) : Bool := supportedImageTypes.contains t

/-- A raw upload: source filename, content type and bytes. -/
structure Upload where
  filename : String
  contentType : String
  bytes : List Nat
deriving DecidableEq

/-- JavaScript-style `String.prototype.trim`: strip leading and trailing
whitespace. -/
def jsTrim (s : String) : String :=
  ⟨((s.data.dropWhile Char.isWhitespace).reverse.dropWhile Char.isWhitespace).reverse⟩

/-! ## Processing Orchestrator -/

/-- Modelled from the spec: the policy-assigned name under which a raw upload
is persisted into the input area (§4.4 step 2); collision-avoiding against
both input and archive so the same logical upload is never in both areas
(`app.py` is not in the staged sources). -/
def inputName (st : Catalog) (u : Upload) : String :=
  freshName (fileStem u.filename) (fileExt u.filename) (st.inputArea ++ st.archiveArea)

/-- Modelled from the spec: the policy-assigned output filename
`<source-stem> - <article>.png` with numeric disambiguation against existing
catalog filenames and output files (§4.1) (`app.py` is not in the staged
sources). -/
def outputName (st : Catalog) (u : Upload) (article : String) : String :=
  freshName (fileStem u.filename ++ " - " ++ jsTrim article) ".png"
    (itemFilenames st ++ st.outputArea)

/-- Result of `processUpload`: the catalog state afterwards, the outcome, and
how many Extraction Client calls were made. -/
structure UploadResult where
  state : Catalog
  outcome : Except AppError Item
  extractionCalls : Nat

/-- Modelled from the spec: `processUpload` (§4.4) (`app.py` is not in the
staged sources). Steps: validate article and content type; persist the raw
upload into the input area; invoke the Extraction Client exactly once (its
outcome is the `extract` argument); persist the output; optionally move the
original from input to archive; insert the Item. Any failure aborts the
remaining steps. -/
def processUpload (st : Catalog) (u : Upload) (article : String) (archive : Bool)
    (extract : Except String (List Nat)) : UploadResult :=
  if jsTrim article = "" then
    ⟨st, .error (.validation "article is required"), 0⟩
  else if supportedImageType u.contentType then
    let inName := inputName st u
    let st1 : Catalog := { st with inputArea := inName :: st.inputArea }
    match extract with
    | .error msg => ⟨st1, .error (.extraction msg), 1⟩
    | .ok _ =>
      let outName := outputName st1 u article
      let st2 : Catalog := { st1 with outputArea := outName :: st1.outputArea }
      let st3 : Catalog :=
        if archive then
          { st2 with inputArea := st2.inputArea.erase inName,
                     archiveArea := inName :: st2.archiveArea }
        else st2
      let item : Item := { id := st3.nextItemId, filename := outName, article := jsTrim article }
      ⟨{ st3 with items := st3.items ++ [item], nextItemId := st3.nextItemId + 1 }, .ok item, 1⟩
  else
    ⟨st, .error (.validation "unsupported file type"), 0⟩

/-! ## Outfit Compositor and Catalog queries -/

/-- Modelled from the spec: Catalog Store lookup of one Item by id (§4.3). -/
def findItem (st : Catalog) (i : Nat) : Option Item :=
  st.items.find? (fun it => it.id == i)

/-- The requested ids that are absent from the catalog, in request order. -/
def missingIds (st : Catalog) (ids : List Nat) : List Nat :=
  ids.filter (fun i => (findItem st i).isNone)

/-- Modelled from the spec: `Catalog Store.getItemsByIds` (§4.3) — fails with
`NotFoundError` listing the missing ids if any id is absent (`app.py` is not
in the staged sources). -/
def getItemsByIds (st : Catalog) (ids : List Nat) : Except AppError (List Item) :=
  if missingIds st ids = [] then .ok (ids.filterMap (findItem st))
  else .error (.notFound (missingIds st ids))

/-- Denormalized member reference for an Item, as served to the frontend. -/
def toOutfitItem (it : Item) : OutfitItem := ⟨it.id, it.filename, "/images/" ++ it.filename⟩

/-- Result of `composeOutfit`: the catalog state afterwards and the outcome. -/
structure ComposeResult where
  state : Catalog
  outcome : Except AppError Outfit

/-- Modelled from the spec: `composeOutfit` (§4.5) (`app.py` is not in the
staged sources). Rejects an empty id sequence with `ValidationError`;
resolves all ids, aborting with `NotFoundError` naming the missing ids;
renders the composite (its outcome is the `render` argument) — a render
failure aborts before any record is created; persists the composite in the
output area and inserts the Outfit. -/
def composeOutfit (st : Catalog) (ids : List Nat)
    (render : Except String (List Nat)) : ComposeResult :=
  if ids = [] then ⟨st, .error (.validation "no items selected")⟩
  else
    match getItemsByIds st ids with
    | .error e => ⟨st, .error e⟩
    | .ok members =>
      match render with
      | .error msg => ⟨st, .error (.storage msg)⟩
      | .ok _ =>
        let name := freshName "outfit" ".png"
          (itemFilenames st ++ outfitFilenames st ++ st.outputArea)
        let outfit : Outfit := ⟨st.nextOutfitId, name, members.map toOutfitItem⟩
        ⟨{ st with outfits := st.outfits ++ [outfit],
                   nextOutfitId := st.nextOutfitId + 1,
                   outputArea := name :: st.outputArea }, .ok outfit⟩

/-! ## Outfit Compositor layout -/

/-- Ceiling of the square root: the least `c` with `n ≤ c * c`. -/
def ceilSqrt (n : Nat) : Nat :=
  if Nat.sqrt n * Nat.sqrt n = n then Nat.sqrt n else Nat.sqrt n + 1

/-- Modelled from the spec: the compositor's grid column count for `n`
member images, `columns = ceil(sqrt(n))` (§4.5 step 3) (`app.py` is not in
the staged sources). -/
def gridColumns (n : Nat) : Nat := ceilSqrt n

/-- Pixel dimensions of a source image. -/
structure ImageDim where
  w : Nat
  h : Nat

/-- Where one member image lands on the composite canvas: its grid cell and
the position and size of the scaled image. -/
structure CellPlacement where
  row : Nat
  col : Nat
  x : ℚ
  y : ℚ
  w : ℚ
  h : ℚ

/-- The scale factor fitting an image into a square cell of side `cell`
while preserving its aspect ratio. -/
def fitScale (cell : ℚ) (d : ImageDim) : ℚ := min (cell / d.w) (cell / d.h)

/-- Modelled from the spec: placement of the `i`-th supplied image in a grid
with `cols` columns, cells of side `cell` and uniform padding `pad`, the
image scaled to fit its cell (§4.5 step 3) (`app.py` is not in the staged
sources). Cells fill left-to-right, then top-to-bottom. -/
def placeAt (cell pad : ℚ) (cols : Nat) (i : Nat) (d : ImageDim) : CellPlacement :=
  { row := i / cols, col := i % cols,
    x := pad + ((i % cols : Nat) : ℚ) * (cell + pad),
    y := pad + ((i / cols : Nat) : ℚ) * (cell + pad),
    w := d.w * fitScale cell d, h := d.h * fitScale cell d }

/-- Modelled from the spec: the compositor's layout of the member images, in
the order the item ids were supplied (§4.5 step 3) (`app.py` is not in the
staged sources). -/
def layoutOutfit (cell pad : ℚ) (dims : List ImageDim) : List CellPlacement :=
  (List.range dims.length).zipWith (placeAt cell pad (gridColumns dims.length)) dims

/-- A file is never in both the input area and the archive area. -/
def AreasDisjoint (st : Catalog) : Prop :=
  ∀ n, n ∈ st.inputArea → n ∉ st.archiveArea

/-! ## Frontend: API client (`frontend/src/utils/api.ts`) -/

/-- A processed file as listed by the backend (`api.ts`, `ProcessedFile`);
only the fields the claims touch. -/
structure ProcessedFile where
  id : Nat
  filename : String
  download_url : String
  image_url : String
deriving DecidableEq

/-- An HTTP response as the `fetch` calls see it. -/
structure HttpResponse where
  ok : Bool
  body : List Nat
deriving DecidableEq

/-- `api.downloadFile` (`api.ts`): return the body as a blob when the
response is ok, otherwise throw `"Failed to download file"`. -/
def downloadFile (r : HttpResponse) : Except String (List Nat) :=
  if r.ok then .ok r.body else .error "Failed to download file"

/-- `api.generateOutfit` (`api.ts`): the `image_ids` array sent in the
request body is the selected files mapped to their ids. -/
def generateOutfitRequestIds (selectedFiles : List ProcessedFile) : List Nat :=
  selectedFiles.map (fun f => f.id)

/-! ## Frontend: gallery selection (`ImageGallery.tsx`) -/

/-- `files.filter(file => selectedFiles.has(file.filename))` in
`handleGenerateOutfit` (`ImageGallery.tsx`): the files list filtered by
membership of the filename in the selected set. -/
def selectedFileObjects (files : List ProcessedFile) (selected : List String) :
    List ProcessedFile :=
  files.filter (fun f => selected.contains f.filename)

/-- What `handleGenerateOutfit` does: either nothing, or one invocation of
the `onGenerateOutfit` callback with the filtered files. -/
inductive OutfitRequest where
  | none : OutfitRequest
  | send : List ProcessedFile → OutfitRequest
deriving DecidableEq

/-- `handleGenerateOutfit` (`ImageGallery.tsx`): invoke the callback with
the filtered selection only when the callback exists and the filtered
selection is non-empty. -/
def handleGenerateOutfit (hasCallback : Bool) (files : List ProcessedFile)
    (selected : List String) : OutfitRequest :=
  if hasCallback ∧ (selectedFileObjects files selected).length ≠ 0 then
    .send (selectedFileObjects files selected)
  else .none

/-- The render condition of the Generate Outfit button (`ImageGallery.tsx`):
`isSelectMode && selectedFiles.size > 0 && onGenerateOutfit`. -/
def showGenerateOutfitButton (isSelectMode : Bool) (selectedCount : Nat)
    (hasCallback : Bool) : Bool :=
  isSelectMode && decide (0 < selectedCount) && hasCallback

/-! ## Frontend: upload form (`ImageUpload.tsx`) -/

/-- A browser `File`: name and MIME content type. -/
structure BrowserFile where
  name : String
  type : String
deriving DecidableEq

/-- `file.type.startsWith('image/')` in `handleFile` (`ImageUpload.tsx`). -/
def mimeIsImage (t : String) : Bool := "image/".data.isPrefixOf t.data

/-- `handleFile` (`ImageUpload.tsx`): accept the file only when its content
type starts with `image/`; otherwise report an error and leave the current
selection unchanged. -/
def handleFile (cur : Option BrowserFile) (f : BrowserFile) : Option BrowserFile :=
  if mimeIsImage f.type then some f else cur

/-- The user interactions that change the upload form's selected file. -/
inductive UploadEvent where
  | pick : BrowserFile → UploadEvent
  | remove : UploadEvent

/-- One event's effect on `selectedFile`: `handleFile` for an offered file,
`removeFile` clears the selection. -/
def applyUploadEvent (cur : Option BrowserFile) : UploadEvent → Option BrowserFile
  | .pick f => handleFile cur f
  | .remove => Option.none

/-- The upload form's `selectedFile` after a sequence of events, starting
from no selection. -/
def selectedAfter (evs : List UploadEvent) : Option BrowserFile :=
  evs.foldl applyUploadEvent Option.none

/-- What `handleSubmit` does: reject before any network call, or issue the
`processImage` request with the file and the trimmed article. -/
inductive SubmitAction where
  | rejected : SubmitAction
  | request : BrowserFile → String → SubmitAction
deriving DecidableEq

/-- `handleSubmit` (`ImageUpload.tsx`): reject when no file is selected or
the trimmed article is empty; otherwise call `api.processImage` with the
selected file and `article.trim()`. -/
def handleSubmit (selectedFile : Option BrowserFile) (article : String) : SubmitAction :=
  match selectedFile with
  | Option.none => .rejected
  | some f => if jsTrim article = "" then .rejected else .request f (jsTrim article)

/-! ## Concrete witnesses' data -/

/-- The upload of the spec's concrete naming scenario. -/
def demoUpload : Upload := ⟨"photo1.jpg", "image/jpeg", []⟩

/-- Catalog state after the first scenario upload. -/
def demoState1 : Catalog :=
  (processUpload emptyCatalog demoUpload "sweater" false (.ok [])).state

/-- Catalog state after the second scenario upload. -/
def demoState2 : Catalog :=
  (processUpload demoState1 demoUpload "sweater" false (.ok [])).state

/-- A catalog holding one Item with id 1, for concrete witnesses. -/
def demoCatalog : Catalog :=
  ⟨[⟨1, "tee - t-shirt.png", "t-shirt"⟩], [], 2, 1, [], ["tee - t-shirt.png"], []⟩

/-! ## Decimal rendering: correctness -/

/-- `charVal` inverts `Nat.digitChar` on decimal digits. -/
theorem charVal_digitChar : ∀ d, d < 10 → charVal (Nat.digitChar d) = d := by decide

/-- Round trip: the decimal rendering evaluates back to the number. -/
theorem decVal_decCharsAux : ∀ f n : Nat, n ≤ f → decVal (decCharsAux f n) = n := by
  intro f
  induction f with
  | zero =>
    intro n hn
    have : n = 0 := Nat.le_zero.mp hn
    subst this
    decide
  | succ f ih =>
    intro n hn
    by_cases h10 : n < 10
    · simp only [decCharsAux, if_pos h10, decVal, List.foldl]
      rw [Nat.zero_mul, Nat.zero_add]
      exact charVal_digitChar n h10
    · have hdiv : n / 10 ≤ f := by
        have : n / 10 < n := Nat.div_lt_self (by omega) (by omega)
        omega
      simp only [decCharsAux, if_neg h10]
      show decVal (decCharsAux f (n / 10) ++ [Nat.digitChar (n % 10)]) = n
      unfold decVal
      rw [List.foldl_append]
      have hrec := ih (n / 10) hdiv
      unfold decVal at hrec
      rw [hrec]
      simp only [List.foldl]
      rw [charVal_digitChar (n % 10) (Nat.mod_lt n (by omega))]
      omega

/-- Round trip at the `decChars` interface. -/
theorem decVal_decChars (n : Nat) : decVal (decChars n) = n :=
  decVal_decCharsAux n n le_rfl

/-- Distinct numbers render to distinct decimal strings. -/
theorem decString_inj {m n : Nat} (h : decString m = decString n) : m = n := by
  have hC : decChars m = decChars n := congrArg String.data h
  have := congrArg decVal hC
  rwa [decVal_decChars, decVal_decChars] at this

/-! ## Naming policy: freshness -/

/-- Distinct disambiguation counters give distinct candidate filenames. -/
theorem candidate_inj (base ext : String) {j k : Nat}
    (h : candidate base ext j = candidate base ext k) : j = k := by
  by_cases hj : j = 0 <;> by_cases hk : k = 0
  · rw [hj, hk]
  · exfalso
    rw [candidate, candidate, if_pos hj, if_neg hk] at h
    have hlen := congrArg String.length h
    rw [String.length_append, String.length_append, String.length_append,
      String.length_append, String.length_append] at hlen
    have h2 : (" (" : String).length = 2 := rfl
    have h1 : (")" : String).length = 1 := rfl
    omega
  · exfalso
    rw [candidate, candidate, if_neg hj, if_pos hk] at h
    have hlen := congrArg String.length h
    rw [String.length_append, String.length_append, String.length_append,
      String.length_append, String.length_append] at hlen
    have h2 : (" (" : String).length = 2 := rfl
    have h1 : (")" : String).length = 1 := rfl
    omega
  · rw [candidate, candidate, if_neg hj, if_neg hk] at h
    have hdata := congrArg String.data h
    rw [String.data_append, String.data_append, String.data_append, String.data_append,
      String.data_append, String.data_append, String.data_append, String.data_append] at hdata
    have hD : decChars j = decChars k :=
      List.append_cancel_left (List.append_cancel_right (List.append_cancel_right hdata))
    have := congrArg decVal hD
    rwa [decVal_decChars, decVal_decChars] at this

/-- The assigned filename never collides with an existing one: searching
`existing.length + 1` pairwise-distinct candidates must find a free one. -/
theorem freshName_not_mem (base ext : String) (existing : List String) :
    freshName base ext existing ∉ existing := by
  unfold freshName
  split
  · next k hk =>
    have := List.find?_some hk
    simp at this
    exact this
  · next hnone =>
    exfalso
    have hall := List.find?_eq_none.mp hnone
    have hmem : ∀ k : Fin (existing.length + 1), candidate base ext k.1 ∈ existing := by
      intro k
      have hk := hall k.1 (List.mem_range.mpr k.2)
      simpa using hk
    have hinj : Set.InjOn (fun k : Fin (existing.length + 1) => candidate base ext k.1)
        ↑(Finset.univ : Finset (Fin (existing.length + 1))) := by
      intro a _ b _ hab
      exact Fin.ext (candidate_inj base ext hab)
    have hcard := Finset.card_le_card_of_injOn
      (fun k : Fin (existing.length + 1) => candidate base ext k.1)
      (fun a _ => List.mem_toFinset.mpr (hmem a)) hinj
    rw [Finset.card_univ, Fintype.card_fin] at hcard
    have := List.toFinset_card_le existing
    omega

/-- Without a collision the assigned filename is the plain base form. -/
theorem freshName_base (base ext : String) (existing : List String)
    (h : base ++ ext ∉ existing) : freshName base ext existing = base ++ ext := by
  unfold freshName
  rw [List.range_succ_eq_map, List.find?_cons]
  simp [candidate, h]

/-! ## Catalog lookup lemmas -/

/-- An id is missing exactly when requested and absent from the catalog. -/
theorem mem_missingIds (st : Catalog) (ids : List Nat) (j : Nat) :
    j ∈ missingIds st ids ↔ j ∈ ids ∧ findItem st j = Option.none := by
  simp [missingIds, List.mem_filter, Option.isNone_iff_eq_none]

/-- When no id is missing, resolving the ids and reading their `id` fields
gives back the request, in order. -/
theorem resolvedIds (st : Catalog) : ∀ ids : List Nat, missingIds st ids = [] →
    (ids.filterMap (findItem st)).map (fun it => it.id) = ids := by
  intro ids
  induction ids with
  | nil => intro _; rfl
  | cons i rest ih =>
    intro h
    by_cases hp : (findItem st i).isNone = true
    · simp [missingIds, List.filter_cons, hp] at h
    · obtain ⟨it, hit⟩ : ∃ it, findItem st i = some it := by
        cases hfind : findItem st i with
        | none => rw [hfind] at hp; simp at hp
        | some it => exact ⟨it, rfl⟩
      have hrest : missingIds st rest = [] := by
        simpa [missingIds, List.filter_cons, hp] using h
      have hid : it.id = i := by
        have := List.find?_some hit
        simpa using this
      rw [List.filterMap_cons, hit, List.map_cons, hid, ih hrest]

/-! ## Frontend claim theorems -/

/-- C8: the id sequence the frontend submits to the generate-outfit endpoint
is the ids of the files list filtered by membership in the selected set,
in the files list's order; only the membership of the selected set matters
(the user's selection order is not transmitted), and the submitted ids are a
subsequence of the catalog listing's ids. -/
theorem c8_generate_outfit_ids :
    (∀ (hasCallback : Bool) (files : List ProcessedFile) (selected : List String)
        (objs : List ProcessedFile),
        handleGenerateOutfit hasCallback files selected = .send objs →
        generateOutfitRequestIds objs =
          (files.filter (fun f => selected.contains f.filename)).map (fun f => f.id)) ∧
    (∀ (hasCallback : Bool) (files : List ProcessedFile) (sel1 sel2 : List String),
        (∀ x, x ∈ sel1 ↔ x ∈ sel2) →
        handleGenerateOutfit hasCallback files sel1 = handleGenerateOutfit hasCallback files sel2) ∧
    (∀ (hasCallback : Bool) (files : List ProcessedFile) (selected : List String)
        (objs : List ProcessedFile),
        handleGenerateOutfit hasCallback files selected = .send objs →
        (generateOutfitRequestIds objs).Sublist (files.map (fun f => f.id))) := by
  have hsend : ∀ (hasCallback : Bool) (files : List ProcessedFile) (selected : List String)
      (objs : List ProcessedFile),
      handleGenerateOutfit hasCallback files selected = .send objs →
      objs = selectedFileObjects files selected := by
    intro hasCallback files selected objs h
    unfold handleGenerateOutfit at h
    split at h
    · cases h; rfl
    · cases h
  refine ⟨?_, ?_, ?_⟩
  · intro hasCallback files selected objs h
    rw [hsend hasCallback files selected objs h]
    rfl
  · intro hasCallback files sel1 sel2 h
    have hsel : ∀ y, sel1.contains y = sel2.contains y := by
      intro y
      by_cases hy : y ∈ sel1
      · simp [hy, (h y).mp hy]
      · have hy2 : y ∉ sel2 := fun hc => hy ((h y).mpr hc)
        simp [hy, hy2]
    have heq : selectedFileObjects files sel1 = selectedFileObjects files sel2 := by
      unfold selectedFileObjects
      exact List.filter_congr (fun x _ => hsel x.filename)
    unfold handleGenerateOutfit
    rw [heq]
  · intro hasCallback files selected objs h
    rw [hsend hasCallback files selected objs h]
    exact (List.filter_sublist files).map (fun f => f.id)

/-- C9: the gallery invokes the generate-outfit callback only with a
non-empty filtered selection — the Generate Outfit button renders only when
the selection is non-empty, `handleGenerateOutfit` re-checks the filtered
list, and an empty selection never produces a request — so the
empty-member-set request is never issued from this UI. -/
theorem c9_no_empty_outfit_request :
    (∀ (hasCallback : Bool) (files : List ProcessedFile) (selected : List String)
        (objs : List ProcessedFile),
        handleGenerateOutfit hasCallback files selected = .send objs →
        objs ≠ [] ∧ generateOutfitRequestIds objs ≠ []) ∧
    (∀ (selectMode : Bool) (selectedCount : Nat) (hasCallback : Bool),
        showGenerateOutfitButton selectMode selectedCount hasCallback = true →
        0 < selectedCount) ∧
    (∀ (hasCallback : Bool) (files : List ProcessedFile),
        handleGenerateOutfit hasCallback files [] = .none) := by
  refine ⟨?_, ?_, ?_⟩
  · intro hasCallback files selected objs h
    unfold handleGenerateOutfit at h
    split at h
    · next hcond =>
      cases h
      have hne : selectedFileObjects files selected ≠ [] := by
        intro hnil
        exact hcond.2 (by rw [hnil]; rfl)
      refine ⟨hne, ?_⟩
      intro hids
      exact hne (by simpa [generateOutfitRequestIds] using hids)
    · cases h
  · intro selectMode selectedCount hasCallback h
    simp [showGenerateOutfitButton] at h
    exact h.1.2
  · intro hasCallback files
    simp [handleGenerateOutfit, selectedFileObjects]

/-- C10: `downloadFile` returns the response body exactly when the response
is ok, and otherwise rejects with the fixed message
`"Failed to download file"` without returning any data. -/
theorem c10_downloadFile_ok_iff :
    ∀ r : HttpResponse,
      (r.ok = true → downloadFile r = .ok r.body) ∧
      (r.ok = false → downloadFile r = .error "Failed to download file") ∧
      ((∃ b, downloadFile r = .ok b) ↔ r.ok = true) := by
  intro r
  refine ⟨?_, ?_, ?_, ?_⟩
  · intro h; simp [downloadFile, h]
  · intro h; simp [downloadFile, h]
  · rintro ⟨b, hb⟩
    cases hr : r.ok with
    | false => rw [downloadFile, hr] at hb; simp at hb
    | true => rfl
  · intro h
    exact ⟨r.body, by simp [downloadFile, h]⟩

/-! ## Upload form invariant -/

/-- Equation of `applyUploadEvent` for an offered file. -/
theorem applyUploadEvent_pick (cur : Option BrowserFile) (b : BrowserFile) :
    applyUploadEvent cur (.pick b) = if mimeIsImage b.type then some b else cur := rfl

/-- Equation of `handleSubmit` with a selected file. -/
theorem handleSubmit_some (g : BrowserFile) (article : String) :
    handleSubmit (some g) article =
      if jsTrim article = "" then .rejected else .request g (jsTrim article) := rfl

/-- Only files whose content type starts with `image/` can ever become the
upload form's selected file: `handleFile` refuses everything else. -/
theorem selectedAfter_isImage :
    ∀ (evs : List UploadEvent) (cur : Option BrowserFile),
      (∀ g, cur = some g → mimeIsImage g.type = true) →
      ∀ f, evs.foldl applyUploadEvent cur = some f → mimeIsImage f.type = true := by
  intro evs
  induction evs with
  | nil => intro cur hcur f hf; exact hcur f hf
  | cons e rest ih =>
    intro cur hcur f hf
    refine ih (applyUploadEvent cur e) ?_ f hf
    intro g hg
    cases e with
    | pick b =>
      rw [applyUploadEvent_pick] at hg
      by_cases hm : mimeIsImage b.type = true
      · rw [if_pos hm] at hg
        cases hg
        exact hm
      · rw [if_neg hm] at hg
        exact hcur g hg
    | remove => cases hg

/-- C1: an upload request with an empty or whitespace-only article label, or
an unsupported content type, makes `processUpload` fail with a
`ValidationError`, leaving the catalog state (Items, output files) untouched
and never calling the Extraction Client; and the frontend form only ever
issues a `processImage` request carrying a file whose content type starts
with `image/` and a non-empty trimmed article — invalid submissions are
rejected before any network call. -/
theorem c1_invalid_upload_rejected :
    (∀ (st : Catalog) (u : Upload) (article : String) (archive : Bool)
        (extract : Except String (List Nat)),
        (jsTrim article = "" ∨ supportedImageType u.contentType = false) →
        (processUpload st u article archive extract).state = st ∧
        (∃ msg, (processUpload st u article archive extract).outcome =
          Except.error (AppError.validation msg)) ∧
        (processUpload st u article archive extract).extractionCalls = 0) ∧
    (∀ (evs : List UploadEvent) (article : String) (f : BrowserFile) (a : String),
        handleSubmit (selectedAfter evs) article = .request f a →
        mimeIsImage f.type = true ∧ a ≠ "") := by
  constructor
  · intro st u article archive extract hbad
    by_cases h1 : jsTrim article = ""
    · refine ⟨?_, ⟨"article is required", ?_⟩, ?_⟩ <;> simp [processUpload, h1]
    · have h2 : supportedImageType u.contentType = false := by
        rcases hbad with h | h
        · exact absurd h h1
        · exact h
      refine ⟨?_, ⟨"unsupported file type", ?_⟩, ?_⟩ <;> simp [processUpload, h1, h2]
  · intro evs article f a h
    cases hsel : selectedAfter evs with
    | none => rw [hsel] at h; cases h
    | some g =>
      rw [hsel, handleSubmit_some] at h
      by_cases ht : jsTrim article = ""
      · rw [if_pos ht] at h; cases h
      · rw [if_neg ht] at h
        cases h
        constructor
        · exact selectedAfter_isImage evs Option.none (by intro x hx; cases hx) f hsel
        · exact ht

/-- C2: `composeOutfit` on the empty id sequence always fails with
`ValidationError` and leaves the catalog unchanged; on any sequence with an
id absent from the catalog it fails with `NotFoundError` carrying exactly
the missing ids, creates zero Outfits and leaves the Outfit count
unchanged. -/
theorem c2_composeOutfit_rejects_empty_and_missing :
    (∀ (st : Catalog) (render : Except String (List Nat)),
        composeOutfit st [] render =
          ⟨st, Except.error (AppError.validation "no items selected")⟩) ∧
    (∀ (st : Catalog) (ids : List Nat) (render : Except String (List Nat)),
        (∃ i, i ∈ ids ∧ findItem st i = Option.none) →
        composeOutfit st ids render =
          ⟨st, Except.error (AppError.notFound (missingIds st ids))⟩ ∧
        missingIds st ids ≠ [] ∧
        (∀ j, j ∈ missingIds st ids ↔ j ∈ ids ∧ findItem st j = Option.none) ∧
        (composeOutfit st ids render).state.outfits = st.outfits) := by
  constructor
  · intro st render
    simp [composeOutfit]
  · intro st ids render hmissing
    obtain ⟨i, hi, hnone⟩ := hmissing
    have hids : ids ≠ [] := by
      rintro rfl
      cases hi
    have hmiss : missingIds st ids ≠ [] := by
      intro h0
      have hmem := (mem_missingIds st ids i).mpr ⟨hi, hnone⟩
      rw [h0] at hmem
      cases hmem
    have hco : composeOutfit st ids render =
        ⟨st, Except.error (AppError.notFound (missingIds st ids))⟩ := by
      unfold composeOutfit getItemsByIds
      rw [if_neg hids, if_neg hmiss]
    refine ⟨hco, hmiss, mem_missingIds st ids, ?_⟩
    rw [hco]

/-! ## processUpload: branch shapes -/

/-- Shape of a failed-extraction run: the raw upload is staged into the
input area, the error is surfaced, exactly one extraction call was made. -/
theorem processUpload_error_eq (st : Catalog) (u : Upload) (article : String)
    (archive : Bool) (msg : String) (ht : jsTrim article ≠ "")
    (hs : supportedImageType u.contentType = true) :
    processUpload st u article archive (.error msg) =
      ⟨{ st with inputArea := inputName st u :: st.inputArea },
        Except.error (AppError.extraction msg), 1⟩ := by
  unfold processUpload
  rw [if_neg ht, if_pos hs]

/-- Shape of a successful run without archiving. -/
theorem processUpload_false_eq (st : Catalog) (u : Upload) (article : String)
    (bytes : List Nat) (ht : jsTrim article ≠ "")
    (hs : supportedImageType u.contentType = true) :
    processUpload st u article false (.ok bytes) =
      ⟨{ st with
          items := st.items ++ [⟨st.nextItemId,
            outputName { st with inputArea := inputName st u :: st.inputArea } u article,
            jsTrim article⟩],
          nextItemId := st.nextItemId + 1,
          inputArea := inputName st u :: st.inputArea,
          outputArea :=
            outputName { st with inputArea := inputName st u :: st.inputArea } u article
              :: st.outputArea },
        Except.ok ⟨st.nextItemId,
          outputName { st with inputArea := inputName st u :: st.inputArea } u article,
          jsTrim article⟩, 1⟩ := by
  unfold processUpload
  rw [if_neg ht, if_pos hs]
  rfl

/-- Shape of a successful run with archiving: the original leaves the input
area and lands in the archive area. -/
theorem processUpload_true_eq (st : Catalog) (u : Upload) (article : String)
    (bytes : List Nat) (ht : jsTrim article ≠ "")
    (hs : supportedImageType u.contentType = true) :
    processUpload st u article true (.ok bytes) =
      ⟨{ st with
          items := st.items ++ [⟨st.nextItemId,
            outputName { st with inputArea := inputName st u :: st.inputArea } u article,
            jsTrim article⟩],
          nextItemId := st.nextItemId + 1,
          inputArea := st.inputArea,
          outputArea :=
            outputName { st with inputArea := inputName st u :: st.inputArea } u article
              :: st.outputArea,
          archiveArea := inputName st u :: st.archiveArea },
        Except.ok ⟨st.nextItemId,
          outputName { st with inputArea := inputName st u :: st.inputArea } u article,
          jsTrim article⟩, 1⟩ := by
  unfold processUpload
  rw [if_neg ht, if_pos hs]
  simp [List.erase_cons_head]

/-- A validated upload whose extraction succeeds yields an Item. -/
theorem processUpload_ok_outcome (st : Catalog) (u : Upload) (article : String)
    (archive : Bool) (bytes : List Nat) (ht : jsTrim article ≠ "")
    (hs : supportedImageType u.contentType = true) :
    ∃ it : Item, (processUpload st u article archive (.ok bytes)).outcome = .ok it := by
  cases archive
  · rw [processUpload_false_eq st u article bytes ht hs]
    exact ⟨_, rfl⟩
  · rw [processUpload_true_eq st u article bytes ht hs]
    exact ⟨_, rfl⟩

/-- C3: composing any non-empty sequence of ids all present in the catalog
succeeds with exactly one new Outfit whose resolved member ids are exactly
the supplied ids, and whose composite file is in the output area; a failed
composite render leaves the catalog unchanged, so no Outfit record exists
without its composite image. -/
theorem c3_composeOutfit_success :
    ∀ (st : Catalog) (ids : List Nat) (bytes : List Nat),
      ids ≠ [] → missingIds st ids = [] →
      (∃ o : Outfit,
        (composeOutfit st ids (.ok bytes)).outcome = .ok o ∧
        (composeOutfit st ids (.ok bytes)).state.outfits = st.outfits ++ [o] ∧
        o.items.map (fun m => m.id) = ids ∧
        o.filename ∈ (composeOutfit st ids (.ok bytes)).state.outputArea) ∧
      (∀ msg, (composeOutfit st ids (.error msg)).state = st) := by
  intro st ids bytes hne hmiss
  have hco : composeOutfit st ids (.ok bytes) =
      ⟨{ st with
          outfits := st.outfits ++
            [⟨st.nextOutfitId,
              freshName "outfit" ".png"
                (itemFilenames st ++ outfitFilenames st ++ st.outputArea),
              (ids.filterMap (findItem st)).map toOutfitItem⟩],
          nextOutfitId := st.nextOutfitId + 1,
          outputArea :=
            freshName "outfit" ".png"
                (itemFilenames st ++ outfitFilenames st ++ st.outputArea)
              :: st.outputArea },
        Except.ok ⟨st.nextOutfitId,
          freshName "outfit" ".png"
            (itemFilenames st ++ outfitFilenames st ++ st.outputArea),
          (ids.filterMap (findItem st)).map toOutfitItem⟩⟩ := by
    unfold composeOutfit getItemsByIds
    rw [if_neg hne, if_pos hmiss]
  constructor
  · refine ⟨⟨st.nextOutfitId,
      freshName "outfit" ".png" (itemFilenames st ++ outfitFilenames st ++ st.outputArea),
      (ids.filterMap (findItem st)).map toOutfitItem⟩, ?_, ?_, ?_, ?_⟩
    · rw [hco]
    · rw [hco]
    · show ((ids.filterMap (findItem st)).map toOutfitItem).map (fun m => m.id) = ids
      rw [List.map_map]
      have : ((fun m : OutfitItem => m.id) ∘ toOutfitItem) = fun it : Item => it.id := by
        funext it
        rfl
      rw [this]
      exact resolvedIds st ids hmiss
    · rw [hco]
      exact List.mem_cons_self _ _
  · intro msg
    have hcoe : composeOutfit st ids (.error msg) =
        ⟨st, Except.error (AppError.storage msg)⟩ := by
      unfold composeOutfit getItemsByIds
      rw [if_neg hne, if_pos hmiss]
    rw [hcoe]

/-- Witness for C3 at a concrete catalog: composing `[1]` over a catalog
holding Item 1 succeeds, and a failed render changes nothing. -/
theorem c3_composeOutfit_success_witness :
    (∃ o : Outfit,
      (composeOutfit demoCatalog [1] (.ok [])).outcome = .ok o ∧
      (composeOutfit demoCatalog [1] (.ok [])).state.outfits = demoCatalog.outfits ++ [o] ∧
      o.items.map (fun m => m.id) = [1] ∧
      o.filename ∈ (composeOutfit demoCatalog [1] (.ok [])).state.outputArea) ∧
    (∀ msg, (composeOutfit demoCatalog [1] (.error msg)).state = demoCatalog) :=
  c3_composeOutfit_success demoCatalog [1] [] (by decide) (by decide)

/-- C5: a failed Extraction Client call aborts the whole upload — no Item is
created, no output file is written, exactly one extraction call was made (no
automatic retry) — and the original stays in the input area, so resubmitting
the same file later can still succeed. -/
theorem c5_extraction_failure_aborts :
    ∀ (st : Catalog) (u : Upload) (article : String) (archive : Bool) (msg : String),
      jsTrim article ≠ "" → supportedImageType u.contentType = true →
      (processUpload st u article archive (.error msg)).outcome =
        Except.error (AppError.extraction msg) ∧
      (processUpload st u article archive (.error msg)).state.items = st.items ∧
      (processUpload st u article archive (.error msg)).state.outputArea = st.outputArea ∧
      (processUpload st u article archive (.error msg)).extractionCalls = 1 ∧
      (processUpload st u article archive (.error msg)).state.inputArea =
        inputName st u :: st.inputArea ∧
      (∀ bytes : List Nat, ∃ it : Item,
        (processUpload (processUpload st u article archive (.error msg)).state
          u article archive (.ok bytes)).outcome = .ok it) := by
  intro st u article archive msg ht hs
  rw [processUpload_error_eq st u article archive msg ht hs]
  refine ⟨rfl, rfl, rfl, rfl, rfl, ?_⟩
  intro bytes
  exact processUpload_ok_outcome _ u article archive bytes ht hs

/-- Witness for C5 at a concrete upload: a failed extraction of
`photo1.jpg`/`sweater` over the empty catalog aborts and can be resubmitted
successfully. -/
theorem c5_extraction_failure_aborts_witness :
    (processUpload emptyCatalog demoUpload "sweater" false (.error "quota")).outcome =
      Except.error (AppError.extraction "quota") ∧
    (processUpload emptyCatalog demoUpload "sweater" false (.error "quota")).state.items =
      emptyCatalog.items ∧
    (processUpload emptyCatalog demoUpload "sweater" false (.error "quota")).state.outputArea =
      emptyCatalog.outputArea ∧
    (processUpload emptyCatalog demoUpload "sweater" false (.error "quota")).extractionCalls = 1 ∧
    (processUpload emptyCatalog demoUpload "sweater" false (.error "quota")).state.inputArea =
      inputName emptyCatalog demoUpload :: emptyCatalog.inputArea ∧
    (∀ bytes : List Nat, ∃ it : Item,
      (processUpload
        (processUpload emptyCatalog demoUpload "sweater" false (.error "quota")).state
        demoUpload "sweater" false (.ok bytes)).outcome = .ok it) :=
  c5_extraction_failure_aborts emptyCatalog demoUpload "sweater" false "quota"
    (by decide) (by decide)

/-- C4: the naming policy produces `<source-stem> - <article>.png`, appending
a numeric disambiguating suffix instead of overwriting on collision: the
assigned name never collides with an existing one, the plain form is used
when free, uploading `photo1.jpg` with article `sweater` twice yields
`photo1 - sweater.png` then `photo1 - sweater (1).png`, and Item filenames
stay unique across the catalog. -/
theorem c4_naming_policy :
    (∀ (base ext : String) (existing : List String),
        freshName base ext existing ∉ existing) ∧
    (∀ (base ext : String) (existing : List String), base ++ ext ∉ existing →
        freshName base ext existing = base ++ ext) ∧
    (itemFilenames demoState1 = ["photo1 - sweater.png"] ∧
      itemFilenames demoState2 = ["photo1 - sweater.png", "photo1 - sweater (1).png"]) ∧
    (∀ (st : Catalog) (u : Upload) (article : String) (archive : Bool)
        (extract : Except String (List Nat)),
        (itemFilenames st).Nodup →
        (itemFilenames (processUpload st u article archive extract).state).Nodup) := by
  refine ⟨freshName_not_mem, freshName_base, ⟨?_, ?_⟩, ?_⟩
  · decide
  · decide
  · intro st u article archive extract hnd
    by_cases h1 : jsTrim article = ""
    · have h : processUpload st u article archive extract =
          ⟨st, Except.error (AppError.validation "article is required"), 0⟩ := by
        unfold processUpload
        rw [if_pos h1]
      rw [h]
      exact hnd
    · by_cases h2 : supportedImageType u.contentType = true
      · cases extract with
        | error msg =>
          rw [processUpload_error_eq st u article archive msg h1 h2]
          exact hnd
        | ok bytes =>
          have hfresh : outputName { st with inputArea := inputName st u :: st.inputArea }
              u article ∉ itemFilenames st := by
            intro hmem
            have hnm := freshName_not_mem
              (fileStem u.filename ++ " - " ++ jsTrim article) ".png"
              (itemFilenames { st with inputArea := inputName st u :: st.inputArea } ++
                st.outputArea)
            exact hnm (List.mem_append.mpr (Or.inl hmem))
          have hgoal : (itemFilenames st ++
              [outputName { st with inputArea := inputName st u :: st.inputArea }
                u article]).Nodup := by
            rw [List.nodup_append]
            refine ⟨hnd, List.nodup_singleton _, ?_⟩
            intro a ha hb
            rw [List.mem_singleton] at hb
            subst hb
            exact hfresh ha
          cases archive
          · rw [processUpload_false_eq st u article bytes h1 h2]
            have hres : (List.map (fun i : Item => i.filename)
                (st.items ++ [⟨st.nextItemId,
                  outputName { st with inputArea := inputName st u :: st.inputArea } u article,
                  jsTrim article⟩])).Nodup := by
              rw [List.map_append]
              exact hgoal
            exact hres
          · rw [processUpload_true_eq st u article bytes h1 h2]
            have hres : (List.map (fun i : Item => i.filename)
                (st.items ++ [⟨st.nextItemId,
                  outputName { st with inputArea := inputName st u :: st.inputArea } u article,
                  jsTrim article⟩])).Nodup := by
              rw [List.map_append]
              exact hgoal
            exact hres
      · have h : processUpload st u article archive extract =
            ⟨st, Except.error (AppError.validation "unsupported file type"), 0⟩ := by
          unfold processUpload
          rw [if_neg h1, if_neg h2]
        rw [h]
        exact hnd

/-- C7: a logical upload's original is never in both the input area and the
archive area at once — every `processUpload` and `composeOutfit` outcome
preserves the disjointness invariant — and after a successful upload the
original sits in exactly one of the two areas: the archive area when
archiving was requested, the input area otherwise. -/
theorem c7_input_archive_exclusive :
    (∀ (st : Catalog) (u : Upload) (article : String) (archive : Bool)
        (extract : Except String (List Nat)),
        AreasDisjoint st →
        AreasDisjoint (processUpload st u article archive extract).state) ∧
    (∀ (st : Catalog) (ids : List Nat) (render : Except String (List Nat)),
        AreasDisjoint st → AreasDisjoint (composeOutfit st ids render).state) ∧
    (∀ (st : Catalog) (u : Upload) (article : String) (bytes : List Nat),
        jsTrim article ≠ "" → supportedImageType u.contentType = true →
        (inputName st u ∈ (processUpload st u article true (.ok bytes)).state.archiveArea ∧
          inputName st u ∉ (processUpload st u article true (.ok bytes)).state.inputArea) ∧
        (inputName st u ∈ (processUpload st u article false (.ok bytes)).state.inputArea ∧
          inputName st u ∉ (processUpload st u article false (.ok bytes)).state.archiveArea)) := by
  have hfr : ∀ (st : Catalog) (u : Upload),
      inputName st u ∉ st.inputArea ∧ inputName st u ∉ st.archiveArea := by
    intro st u
    have h := freshName_not_mem (fileStem u.filename) (fileExt u.filename)
      (st.inputArea ++ st.archiveArea)
    exact ⟨fun hm => h (List.mem_append.mpr (Or.inl hm)),
      fun hm => h (List.mem_append.mpr (Or.inr hm))⟩
  refine ⟨?_, ?_, ?_⟩
  · intro st u article archive extract hd
    by_cases h1 : jsTrim article = ""
    · have h : processUpload st u article archive extract =
          ⟨st, Except.error (AppError.validation "article is required"), 0⟩ := by
        unfold processUpload
        rw [if_pos h1]
      rw [h]
      exact hd
    · by_cases h2 : supportedImageType u.contentType = true
      · cases extract with
        | error msg =>
          rw [processUpload_error_eq st u article archive msg h1 h2]
          intro n hn hmem
          rcases List.mem_cons.mp hn with heq | hn'
          · exact (hfr st u).2 (heq ▸ hmem)
          · exact hd n hn' hmem
        | ok bytes =>
          cases archive
          · rw [processUpload_false_eq st u article bytes h1 h2]
            intro n hn hmem
            rcases List.mem_cons.mp hn with heq | hn'
            · exact (hfr st u).2 (heq ▸ hmem)
            · exact hd n hn' hmem
          · rw [processUpload_true_eq st u article bytes h1 h2]
            intro n hn hmem
            rcases List.mem_cons.mp hmem with heq | hmem'
            · exact (hfr st u).1 (heq ▸ hn)
            · exact hd n hn hmem'
      · have h : processUpload st u article archive extract =
            ⟨st, Except.error (AppError.validation "unsupported file type"), 0⟩ := by
          unfold processUpload
          rw [if_neg h1, if_neg h2]
        rw [h]
        exact hd
  · intro st ids render hd
    unfold composeOutfit
    by_cases hids : ids = []
    · rw [if_pos hids]
      exact hd
    · rw [if_neg hids]
      cases hget : getItemsByIds st ids with
      | error e => exact hd
      | ok members =>
        cases render with
        | error msg => exact hd
        | ok bytes => exact hd
  · intro st u article bytes ht hs
    refine ⟨⟨?_, ?_⟩, ⟨?_, ?_⟩⟩
    · rw [processUpload_true_eq st u article bytes ht hs]
      exact List.mem_cons_self _ _
    · rw [processUpload_true_eq st u article bytes ht hs]
      exact (hfr st u).1
    · rw [processUpload_false_eq st u article bytes ht hs]
      exact List.mem_cons_self _ _
    · rw [processUpload_false_eq st u article bytes ht hs]
      exact (hfr st u).2

/-! ## Layout lemmas -/

/-- The layout has one placement per member image. -/
theorem layoutOutfit_length (cell pad : ℚ) (dims : List ImageDim) :
    (layoutOutfit cell pad dims).length = dims.length := by
  simp [layoutOutfit]

/-- The `i`-th placement is the `i`-th supplied image placed in cell `i`. -/
theorem layoutOutfit_get (cell pad : ℚ) (dims : List ImageDim) (i : Nat)
    (h : i < (layoutOutfit cell pad dims).length) (hd : i < dims.length) :
    (layoutOutfit cell pad dims).get ⟨i, h⟩ =
      placeAt cell pad (gridColumns dims.length) i (dims.get ⟨i, hd⟩) := by
  simp [layoutOutfit, List.get_eq_getElem, List.getElem_zipWith, List.getElem_range]

/-- C6: the compositor lays the `n` supplied images out in a grid with
`ceil(sqrt n)` columns (the least column count whose square covers `n`),
one placement per image in supply order, each image in cell
`(i / cols, i % cols)` — left-to-right then top-to-bottom — at uniformly
padded fixed-size cells, scaled to fit the cell while preserving its aspect
ratio, never stretched. -/
theorem c6_outfit_layout :
    (∀ n : Nat, n ≠ 0 →
        n ≤ gridColumns n * gridColumns n ∧
        (gridColumns n - 1) * (gridColumns n - 1) < n) ∧
    (∀ (cell pad : ℚ) (dims : List ImageDim),
        (layoutOutfit cell pad dims).length = dims.length) ∧
    (∀ (cell pad : ℚ) (dims : List ImageDim) (i : Nat)
        (h : i < (layoutOutfit cell pad dims).length) (hd : i < dims.length),
        (layoutOutfit cell pad dims).get ⟨i, h⟩ =
          placeAt cell pad (gridColumns dims.length) i (dims.get ⟨i, hd⟩)) ∧
    (∀ (cell pad : ℚ) (cols i : Nat) (d : ImageDim), cols ≠ 0 →
        (placeAt cell pad cols i d).row = i / cols ∧
        (placeAt cell pad cols i d).col = i % cols ∧
        cols * (placeAt cell pad cols i d).row + (placeAt cell pad cols i d).col = i ∧
        (placeAt cell pad cols i d).col < cols ∧
        (placeAt cell pad cols i d).x = pad + ((i % cols : Nat) : ℚ) * (cell + pad) ∧
        (placeAt cell pad cols i d).y = pad + ((i / cols : Nat) : ℚ) * (cell + pad) ∧
        (placeAt cell pad cols i d).w * (d.h : ℚ) = (placeAt cell pad cols i d).h * (d.w : ℚ) ∧
        (0 < d.w → 0 < d.h →
          (placeAt cell pad cols i d).w ≤ cell ∧ (placeAt cell pad cols i d).h ≤ cell)) := by
  refine ⟨?_, layoutOutfit_length, layoutOutfit_get, ?_⟩
  · intro n hn
    unfold gridColumns ceilSqrt
    by_cases hsq : Nat.sqrt n * Nat.sqrt n = n
    · rw [if_pos hsq]
      constructor
      · exact le_of_eq hsq.symm
      · have hpos : 0 < Nat.sqrt n := Nat.sqrt_pos.mpr (Nat.pos_of_ne_zero hn)
        have h1 : Nat.sqrt n - 1 < Nat.sqrt n := by omega
        calc (Nat.sqrt n - 1) * (Nat.sqrt n - 1)
            < Nat.sqrt n * Nat.sqrt n := Nat.mul_lt_mul'' h1 h1
          _ = n := hsq
    · rw [if_neg hsq]
      constructor
      · have hlt := Nat.lt_succ_sqrt n
        rw [Nat.succ_eq_add_one] at hlt
        exact hlt.le
      · simp only [Nat.add_sub_cancel]
        have h2 := Nat.sqrt_le n
        omega
  · intro cell pad cols i d hcols
    refine ⟨rfl, rfl, Nat.div_add_mod i cols, Nat.mod_lt i (Nat.pos_of_ne_zero hcols),
      rfl, rfl, ?_, ?_⟩
    · show (d.w : ℚ) * fitScale cell d * (d.h : ℚ) = (d.h : ℚ) * fitScale cell d * (d.w : ℚ)
      ring
    · intro hw hh
      have hw' : (0 : ℚ) < (d.w : ℚ) := by exact_mod_cast hw
      have hh' : (0 : ℚ) < (d.h : ℚ) := by exact_mod_cast hh
      constructor
      · have h1 : fitScale cell d ≤ cell / (d.w : ℚ) := min_le_left _ _
        calc (placeAt cell pad cols i d).w
            = (d.w : ℚ) * fitScale cell d := rfl
          _ ≤ (d.w : ℚ) * (cell / (d.w : ℚ)) := mul_le_mul_of_nonneg_left h1 hw'.le
          _ = cell := by field_simp
      · have h1 : fitScale cell d ≤ cell / (d.h : ℚ) := min_le_right _ _
        calc (placeAt cell pad cols i d).h
            = (d.h : ℚ) * fitScale cell d := rfl
          _ ≤ (d.h : ℚ) * (cell / (d.h : ℚ)) := mul_le_mul_of_nonneg_left h1 hh'.le
          _ = cell := by field_simp

end Closet
